import Mathlib

/-!
Verification of the deadline-recalculation engine of the Openserve
Milestone Tracker (source: `src/server/src/middleware/auth.ts`, business-day
module).

Modelling conventions (shallow embedding):

* A `Date` is modelled at calendar-day granularity as an `Int`: the number of
  calendar days since 1970-01-01 in the single local time zone the engine
  uses.  Every date that enters the engine's arithmetic is first normalised
  with `startOfDay`, and no other time-of-day behaviour is observable, so
  `startOfDay` is the identity on this representation and date-fns
  `addDays`/`isBefore`/`isAfter`/`isSameDay` become `+`/`<`/`>`/`=` on day
  numbers.
* `new Date(year, monthIndex, day)` is modelled by `mkDate` via the standard
  Gregorian civil-to-day-number conversion (`daysFromCivil`), taking the year
  argument at face value (JavaScript's remapping of two-digit years to
  1900-1999 is not modelled).  Out-of-range day values roll over linearly,
  exactly as in JavaScript.
* `Math.floor(a / b)` for the positive literal divisors used by the source is
  `Int` division `a / b` (Euclidean = floor for positive divisors), and the
  JavaScript remainder `%` (truncated, sign of the dividend) is `jsMod`.
* date-fns `getYear` is modelled by `yearOf`, the day-number-to-civil-year
  conversion; its correctness against `daysFromCivil` is proved below.
* The `while` loop of `addBusinessDays` is modelled with explicit fuel
  (`businessFuel`), large enough that the loop always finishes its count
  before the fuel runs out; this is proved where needed.
-/

/-- JavaScript `%` (truncated remainder: the sign of a nonzero result is the
sign of the dividend). -/
def jsMod (a b : Int) : Int :=
  if 0 ≤ a then a % b else -((-a) % b)

/-- Day-of-week of a day number, as JavaScript `Date.getDay`:
0 = Sunday, 1 = Monday, ..., 6 = Saturday (1970-01-01 was a Thursday). -/
def dayOfWeek (z : Int) : Int :=
  (z + 4) % 7

/-- date-fns `isWeekend`: Saturday or Sunday. -/
def isWeekend (z : Int) : Bool :=
  dayOfWeek z = 0 ∨ dayOfWeek z = 6

/-- date-fns `startOfDay`.  Day numbers already denote whole calendar days,
so this is the identity (see the module comment). -/
def startOfDay (z : Int) : Int := z

/-- Civil date (year, month 1-12, day 1-31) to day number since 1970-01-01,
by the standard Gregorian-calendar conversion (Hinnant's `days_from_civil`).
Out-of-range `d` rolls over linearly, as JavaScript's `Date` does. -/
def daysFromCivil (y m d : Int) : Int :=
  let yy := if m ≤ 2 then y - 1 else y
  let era := yy / 400
  let yoe := yy - era * 400
  let mp := if m ≤ 2 then m + 9 else m - 3
  let doy := (153 * mp + 2) / 5 + d - 1
  let doe := yoe * 365 + yoe / 4 - yoe / 100 + doy
  era * 146097 + doe - 719468

/-- `new Date(year, monthIndex, day)` (JavaScript month index 0-11). -/
def mkDate (y mIdx d : Int) : Int :=
  daysFromCivil y (mIdx + 1) d

/-- Nat twin of the year-start day count within a 400-year era. -/
def hinSn (y : Nat) : Nat := 365*y + y / 4 - y / 100

/-- Nat twin of the year-of-era recovery numerator. -/
def hinFn (x : Nat) : Nat := x - x / 1460 + x / 36524 - x / 146096

/-- Day count from the era start to the start of year-of-era `y`. -/
def hinS (y : Int) : Int := 365*y + y / 4 - y / 100

/-- Year-of-era recovery numerator of `yearOf`. -/
def hinF (x : Int) : Int := x - x / 1460 + x / 36524 - x / 146096

/-- Year-of-era recovery formula of the day-number-to-civil conversion
(the `yoe` line of Hinnant's `civil_from_days`). -/
def yoeOfDoe (doe : Int) : Int :=
  (doe - doe / 1460 + doe / 36524 - doe / 146096) / 365

/-- Day number to civil year (model of date-fns `getYear`), by the standard
Gregorian conversion (Hinnant's `civil_from_days`, year component). -/
def yearOf (z : Int) : Int :=
  let z2 := z + 719468
  let era := z2 / 146097
  let doe := z2 - era * 146097
  let yoe := yoeOfDoe doe
  let y := yoe + era * 400
  let doy := doe - (365 * yoe + yoe / 4 - yoe / 100)
  let mp := (5 * doy + 2) / 153
  let m := if mp < 10 then mp + 3 else mp - 9
  if m ≤ 2 then y + 1 else y

/-- `getEasterSunday` (auth.ts:89-106): Easter Sunday by the Anonymous
Gregorian algorithm, exactly as the source computes it. -/
def getEasterSunday (year : Int) : Int :=
  let a := jsMod year 19
  let b := year / 100
  let c := jsMod year 100
  let d := b / 4
  let e := jsMod b 4
  let f := (b + 8) / 25
  let g := (b - f + 1) / 3
  let h := jsMod (19 * a + b - d - g + 15) 30
  let i := c / 4
  let k := jsMod c 4
  let l := jsMod (32 + 2 * e + 2 * i - h - k) 7
  let m := (a + 11 * h + 22 * l) / 451
  let month := (h + l - 7 * m + 114) / 31
  let day := jsMod (h + l - 7 * m + 114) 31 + 1
  mkDate year (month - 1) day

/-- `getGoodFriday` (auth.ts:109-112): two days before Easter Sunday. -/
def getGoodFriday (year : Int) : Int :=
  getEasterSunday year - 2

/-- `getFamilyDay` (auth.ts:115-118): the day after Good Friday. -/
def getFamilyDay (year : Int) : Int :=
  getGoodFriday year + 1

/-- The fixed-holiday table of `getSAPublicHolidays` (auth.ts:126-137), as
(JavaScript month index, day) pairs, in source order. -/
def fixedHolidays : List (Int × Int) :=
  [(0, 1), (2, 21), (3, 27), (4, 1), (5, 16),
   (7, 9), (8, 24), (11, 16), (11, 25), (11, 26)]

/-- `getSAPublicHolidays` (auth.ts:122-158): each fixed holiday, moved to the
following Monday when it falls on a Sunday, followed by Good Friday and
Family Day. -/
def getSAPublicHolidays (year : Int) : List Int :=
  (fixedHolidays.map fun md =>
    let date := mkDate year md.1 md.2
    if dayOfWeek date = 0 then date + 1 else date)
  ++ [getGoodFriday year, getFamilyDay year]

/-- `isPublicHoliday` (auth.ts:161-167). -/
def isPublicHoliday (date : Int) : Bool :=
  (getSAPublicHolidays (yearOf date)).contains (startOfDay date)

/-- `isBusinessDay` (auth.ts:170-172). -/
def isBusinessDay (date : Int) : Bool :=
  !isWeekend date && !isPublicHoliday date

/-- The `while` loop of `addBusinessDays` (auth.ts:183-189), with explicit
fuel standing in for the unbounded loop: advance one day at a time, counting
only business days, until `businessDays` have been counted. -/
def addBusinessDaysGo (businessDays : Int) : Nat → Int → Int → Int
  | 0, currentDate, _ => currentDate
  | fuel + 1, currentDate, daysAdded =>
    if daysAdded < businessDays then
      let next := currentDate + 1
      addBusinessDaysGo businessDays fuel next
        (if isBusinessDay next then daysAdded + 1 else daysAdded)
    else currentDate

/-- Fuel budget for `addBusinessDays`: generous enough that the loop always
completes its count first (any 554 consecutive days contain a business day;
proved below for the single-step case). -/
def businessFuel (businessDays : Int) : Nat :=
  800 * (businessDays.toNat + 1)

/-- `addBusinessDays` (auth.ts:175-192). -/
def addBusinessDays (startDate businessDays : Int) : Int :=
  let currentDate := startOfDay startDate
  if businessDays ≤ 0 then currentDate
  else addBusinessDaysGo businessDays (businessFuel businessDays) currentDate 0

/-- The counting loop of `getBusinessDaysBetween` (auth.ts:206-214): count
business days among `earlier + 1, ..., earlier + n`. -/
def countBusinessDaysAfter (earlier : Int) : Nat → Int
  | 0 => 0
  | n + 1 =>
    (if isBusinessDay (earlier + 1) then 1 else 0) + countBusinessDaysAfter (earlier + 1) n

/-- `getBusinessDaysBetween` (auth.ts:195-217). -/
def getBusinessDaysBetween (startDate endDate : Int) : Int :=
  let start := startOfDay startDate
  let e := startOfDay endDate
  if start = e then 0
  else if e < start then -countBusinessDaysAfter e (start - e).toNat
  else countBusinessDaysAfter start (e - start).toNat

/-- `getBusinessDaysUntil` (auth.ts:221-235).  The source captures `today`
as `startOfDay(new Date())` at call time; here it is an explicit
parameter. -/
def getBusinessDaysUntil (today deadline : Int) : Int :=
  let t := startOfDay today
  let deadlineDate := startOfDay deadline
  if t = deadlineDate then 0
  else if deadlineDate < t then -getBusinessDaysBetween deadlineDate t
  else getBusinessDaysBetween t deadlineDate

/-- The twelve phase names (auth.ts:238-251). -/
inductive PhaseName where
  | planning | funding | wayleave | materials | announcement | kickoff
  | build | fqa | ecc | integration | rfa | com
deriving DecidableEq, BEq, Repr

open PhaseName

/-- `PHASE_ORDER` (auth.ts:238-251). -/
def PHASE_ORDER : List PhaseName :=
  [planning, funding, wayleave, materials, announcement, kickoff,
   build, fqa, ecc, integration, rfa, com]

/-- `DEFAULT_ALLOWED_DAYS` (auth.ts:272-285). -/
def DEFAULT_ALLOWED_DAYS : PhaseName → Int
  | planning => 10 | funding => 2 | wayleave => 20 | materials => 15
  | announcement => 1 | kickoff => 2 | build => 20 | fqa => 0
  | ecc => 1 | integration => 2 | rfa => 1 | com => 0

/-- `MIRROR_PHASES` (auth.ts:288-291). -/
def MIRROR_PHASES : PhaseName → Option PhaseName
  | fqa => some build
  | com => some rfa
  | _ => none

/-- Record update: `deadlines[phase] = v` on a partial record. -/
def setPhase (m : PhaseName → Option Int) (p : PhaseName) (v : Int) :
    PhaseName → Option Int :=
  fun q => if q = p then some v else m q

/-- Record update: `deadlines[phase] = v` on a total record. -/
def setPhaseT (m : PhaseName → Int) (p : PhaseName) (v : Int) :
    PhaseName → Int :=
  fun q => if q = p then v else m q

/-- One iteration of the `for` loop of `calculatePhaseDeadlines`
(auth.ts:301-324), acting on the accumulator `(deadlines, previousDeadline)`.
A mirror phase whose source already has a deadline copies it (the truthiness
test `deadlines[mirrorOf]`); otherwise the phase falls through to the normal
branch: `wayleave` with `allowedDays == 0` is skipped, and any other phase
gets `addBusinessDays(previousDeadline, allowedDays)`, which also becomes
the new cursor (mirror phases never advance the cursor). -/
def calcPhaseStep (allowedDaysPerPhase : PhaseName → Int)
    (deadlines : PhaseName → Option Int) (previousDeadline : Int)
    (phase : PhaseName) : (PhaseName → Option Int) × Int :=
  let mirrored : Option Int :=
    match MIRROR_PHASES phase with
    | some mirrorOf => deadlines mirrorOf
    | none => none
  match mirrored with
  | some v => (setPhase deadlines phase v, previousDeadline)
  | none =>
    let allowedDays := allowedDaysPerPhase phase
    if phase = wayleave ∧ allowedDays = 0 then
      (deadlines, previousDeadline)
    else
      let deadline := addBusinessDays previousDeadline allowedDays
      (setPhase deadlines phase deadline,
       if phase ≠ fqa ∧ phase ≠ com then deadline else previousDeadline)

/-- The `for` loop of `calculatePhaseDeadlines` over a list of phases. -/
def calcPhasesAux (allowedDaysPerPhase : PhaseName → Int) :
    List PhaseName → (PhaseName → Option Int) → Int → (PhaseName → Option Int)
  | [], deadlines, _ => deadlines
  | p :: rest, deadlines, previousDeadline =>
    let st := calcPhaseStep allowedDaysPerPhase deadlines previousDeadline p
    calcPhasesAux allowedDaysPerPhase rest st.1 st.2

/-- `calculatePhaseDeadlines` (auth.ts:294-327).  The source builds the
`deadlines` object from `{}`, so the result is a partial record: `none`
models a key that is never assigned (the skipped `wayleave`). -/
def calculatePhaseDeadlines (siteSurveyDate : Int)
    (allowedDaysPerPhase : PhaseName → Int) : PhaseName → Option Int :=
  calcPhasesAux allowedDaysPerPhase PHASE_ORDER (fun _ => none)
    (startOfDay siteSurveyDate)

/-- One iteration of the `for` loop of `calculatePhaseDeadlinesFromDeadline`
(auth.ts:365-390).  `currentDeadlines` is a total record (every phase holds a
Date, which is always truthy), so the mirror test `deadlines[mirrorOf]`
always succeeds for a mirror phase. -/
def calcFromStep (allowedDaysPerPhase : PhaseName → Int)
    (deadlines : PhaseName → Int) (previousDeadline : Int)
    (phase : PhaseName) : (PhaseName → Int) × Int :=
  match MIRROR_PHASES phase with
  | some mirrorOf => (setPhaseT deadlines phase (deadlines mirrorOf), previousDeadline)
  | none =>
    let allowedDays := allowedDaysPerPhase phase
    if phase = wayleave ∧ allowedDays = 0 then
      (deadlines, previousDeadline)
    else
      let deadline := addBusinessDays previousDeadline allowedDays
      (setPhaseT deadlines phase deadline,
       if phase ≠ fqa ∧ phase ≠ com then deadline else previousDeadline)

/-- The `for` loop of `calculatePhaseDeadlinesFromDeadline` over the phases
after the changed one. -/
def calcFromAux (allowedDaysPerPhase : PhaseName → Int) :
    List PhaseName → (PhaseName → Int) → Int → (PhaseName → Int)
  | [], deadlines, _ => deadlines
  | p :: rest, deadlines, previousDeadline =>
    let st := calcFromStep allowedDaysPerPhase deadlines previousDeadline p
    calcFromAux allowedDaysPerPhase rest st.1 st.2

/-- `calculatePhaseDeadlinesFromDeadline` (auth.ts:332-393). -/
def calculatePhaseDeadlinesFromDeadline (changedPhase : PhaseName)
    (newDeadline : Int) (allowedDaysPerPhase : PhaseName → Int)
    (currentDeadlines : PhaseName → Int) : PhaseName → Int :=
  let changedPhaseIndex := PHASE_ORDER.indexOf changedPhase
  let d0 := setPhaseT currentDeadlines changedPhase (startOfDay newDeadline)
  let d1 := if changedPhase = fqa then setPhaseT d0 build (d0 fqa) else d0
  let d2 := if changedPhase = build then setPhaseT d1 fqa (d1 build) else d1
  let d3 := if changedPhase = rfa then setPhaseT d2 com (d2 rfa) else d2
  let d4 := if changedPhase = com then setPhaseT d3 rfa (d3 com) else d3
  calcFromAux allowedDaysPerPhase (PHASE_ORDER.drop (changedPhaseIndex + 1))
    d4 (startOfDay newDeadline)

set_option maxRecDepth 4000 in
theorem natb1 : ∀ y : Nat, y < 400 → 365*y ≤ hinFn (hinSn y) := by decide

set_option maxRecDepth 4000 in
theorem natb2 : ∀ y : Nat, y < 400 → hinFn (hinSn (y+1) - 1) < 365*(y+1) := by decide

theorem hinB1 (y : Int) (h0 : 0 ≤ y) (h1 : y ≤ 399) : 365*y ≤ hinF (hinS y) := by
  obtain ⟨n, rfl⟩ : ∃ n : Nat, y = (n : Int) := ⟨y.toNat, by omega⟩
  have h := natb1 n (by omega)
  simp only [hinFn, hinSn] at h
  have e1 : n / 100 ≤ 365*n + n / 4 := by omega
  have e2 : (365*n + n / 4 - n / 100) / 1460 ≤ 365*n + n / 4 - n / 100 := by omega
  have e3 : (365*n + n / 4 - n / 100) / 146096
      ≤ 365*n + n / 4 - n / 100 - (365*n + n / 4 - n / 100) / 1460
        + (365*n + n / 4 - n / 100) / 36524 := by omega
  zify [e1, e2, e3] at h
  simp only [hinF, hinS]
  omega

theorem hinB2 (y : Int) (h0 : 1 ≤ y) (h1 : y ≤ 400) : hinF (hinS y - 1) < 365*y := by
  obtain ⟨n, hn⟩ : ∃ n : Nat, y = (n : Int) + 1 := ⟨(y-1).toNat, by omega⟩
  subst hn
  have h := natb2 n (by omega)
  simp only [hinFn, hinSn] at h
  have e0 : (1:Nat) ≤ 365*(n+1) + (n+1) / 4 - (n+1) / 100 := by omega
  have e1 : (n+1) / 100 ≤ 365*(n+1) + (n+1) / 4 := by omega
  have e2 : (365*(n+1) + (n+1) / 4 - (n+1) / 100 - 1) / 1460
      ≤ 365*(n+1) + (n+1) / 4 - (n+1) / 100 - 1 := by omega
  have e3 : (365*(n+1) + (n+1) / 4 - (n+1) / 100 - 1) / 146096
      ≤ 365*(n+1) + (n+1) / 4 - (n+1) / 100 - 1
        - (365*(n+1) + (n+1) / 4 - (n+1) / 100 - 1) / 1460
        + (365*(n+1) + (n+1) / 4 - (n+1) / 100 - 1) / 36524 := by omega
  zify [e0, e1, e2, e3] at h
  simp only [hinF, hinS]
  omega

theorem hinF_mono_step (x : Int) (h0 : 0 ≤ x) (h1 : x ≤ 146095) :
    hinF x ≤ hinF (x+1) := by
  simp only [hinF]
  omega

theorem hinF_mono (x y : Int) (h0 : 0 ≤ x) (hxy : x ≤ y) (h1 : y ≤ 146096) :
    hinF x ≤ hinF y := by
  obtain ⟨k, rfl⟩ : ∃ k : Nat, y = x + (k : Int) := ⟨(y - x).toNat, by omega⟩
  clear hxy
  induction k with
  | zero => simp
  | succ k ih =>
    have hk : x + (k : Int) ≤ 146095 := by push_cast at h1 ⊢; omega
    have h2 := ih (by omega)
    have h3 := hinF_mono_step (x + (k : Int)) (by omega) hk
    push_cast
    rw [show x + ((k : Int) + 1) = x + (k : Int) + 1 by ring]
    push_cast at h2
    omega

theorem yoeOfDoe_eq (doe : Int) : yoeOfDoe doe = hinF doe / 365 := by
  simp only [yoeOfDoe, hinF]

theorem hinM2 (doe : Int) (h0 : 0 ≤ doe) (h1 : doe ≤ 146096) :
    0 ≤ yoeOfDoe doe ∧ yoeOfDoe doe ≤ 399 ∧
    hinS (yoeOfDoe doe) ≤ doe ∧
    doe < hinS (yoeOfDoe doe + 1) + (if yoeOfDoe doe = 399 then 1 else 0) := by
  rw [yoeOfDoe_eq]
  have hFnn : 0 ≤ hinF doe ∧ hinF doe ≤ 145999 := by simp only [hinF]; omega
  have hy0 : 0 ≤ hinF doe / 365 := by omega
  have hy1 : hinF doe / 365 ≤ 399 := by omega
  have hlow : hinS (hinF doe / 365) ≤ doe := by
    rcases eq_or_lt_of_le hy0 with h | h
    · simp only [hinS, ← h]
      omega
    · by_contra hcon
      push_neg at hcon
      have hS1 : (365:Int) ≤ hinS (hinF doe / 365) := by
        simp only [hinS]; omega
      have hS2 : hinS (hinF doe / 365) ≤ 145731 := by
        simp only [hinS]; omega
      have hm := hinF_mono doe (hinS (hinF doe / 365) - 1) h0 (by omega) (by omega)
      have hb2 := hinB2 (hinF doe / 365) (by omega) (by omega)
      omega
  refine ⟨hy0, hy1, hlow, ?_⟩
  by_cases hq : hinF doe / 365 = 399
  · rw [hq]
    simp only [hinS]
    norm_num
    omega
  · rw [if_neg hq]
    by_contra hcon
    push_neg at hcon
    have hb1 := hinB1 (hinF doe / 365 + 1) (by omega) (by omega)
    have hS0 : (0:Int) ≤ hinS (hinF doe / 365 + 1) := by simp only [hinS]; omega
    rw [add_zero] at hcon
    have hm := hinF_mono (hinS (hinF doe / 365 + 1)) doe hS0 hcon h1
    omega

/-- Closed form for 1 January of year `y` as a day number. -/
theorem jan1_eq (y : Int) :
    daysFromCivil y 1 1 =
      146097 * ((y-1) / 400) + 365 * ((y-1) % 400) + ((y-1) % 400) / 4
        - ((y-1) % 400) / 100 + 306 - 719468 := by
  simp only [daysFromCivil]
  norm_num
  omega

/-- 1 January in era-split form: for a year written `R + 400*E + 1` with
`R` a year-of-era. -/
theorem jan1_of_era (E R : Int) (h0 : 0 ≤ R) (h1 : R ≤ 399) :
    daysFromCivil (R + E * 400 + 1) 1 1 =
      146097 * E + (365 * R + R / 4 - R / 100) + 306 - 719468 := by
  rw [jan1_eq]
  omega

/-- `yearOf z` is the civil year containing day `z`: `z` lies between
1 January of that year (inclusive) and 1 January of the next (exclusive). -/
theorem yearOf_sound (z : Int) :
    daysFromCivil (yearOf z) 1 1 ≤ z ∧ z < daysFromCivil (yearOf z + 1) 1 1 := by
  simp only [yearOf]
  have hD0 : 0 ≤ z + 719468 - (z + 719468) / 146097 * 146097 := by omega
  have hD1 : z + 719468 - (z + 719468) / 146097 * 146097 ≤ 146096 := by omega
  have hM := hinM2 _ hD0 hD1
  simp only [hinS] at hM
  have hzE : z = 146097 * ((z + 719468) / 146097)
      + (z + 719468 - (z + 719468) / 146097 * 146097) - 719468 := by omega
  generalize hDg : z + 719468 - (z + 719468) / 146097 * 146097 = D at hD0 hD1 hM hzE ⊢
  generalize hYg : yoeOfDoe D = Y at hM ⊢
  generalize hEg : (z + 719468) / 146097 = E at hzE ⊢
  obtain ⟨hY0, hY1, hMl, hMu⟩ := hM
  have hdoy1 : D - (365 * Y + Y / 4 - Y / 100) ≤ 366 := by omega
  have hja : daysFromCivil (Y + E * 400 + 1) 1 1
      = 146097 * E + (365 * Y + Y / 4 - Y / 100) + 306 - 719468 :=
    jan1_of_era E Y hY0 hY1
  split_ifs with hmp hm hm
  · -- mp < 10 and mp + 3 ≤ 2: impossible
    exfalso
    omega
  · -- mp < 10, no year adjustment: doy ≤ 305
    constructor
    · by_cases hY : Y = 0
      · subst hY
        have h399 : daysFromCivil (399 + (E - 1) * 400 + 1) 1 1
            = 146097 * (E - 1) + (365 * 399 + 399 / 4 - 399 / 100) + 306 - 719468 :=
          jan1_of_era (E - 1) 399 (by omega) (by omega)
        rw [show (0:Int) + E * 400 = 399 + (E - 1) * 400 + 1 by ring] at *
        omega
      · have hprev : daysFromCivil ((Y - 1) + E * 400 + 1) 1 1
            = 146097 * E + (365 * (Y - 1) + (Y - 1) / 4 - (Y - 1) / 100) + 306 - 719468 :=
          jan1_of_era E (Y - 1) (by omega) (by omega)
        rw [show Y + E * 400 = (Y - 1) + E * 400 + 1 by ring]
        omega
    · rw [show Y + E * 400 + 1 = Y + E * 400 + 1 by ring, hja]
      omega
  · -- mp >= 10, mp - 9 ≤ 2: year adjusted: doy ≥ 306
    constructor
    · rw [hja]
      omega
    · by_cases hY : Y = 399
      · subst hY
        have hnext : daysFromCivil (0 + (E + 1) * 400 + 1) 1 1
            = 146097 * (E + 1) + (365 * 0 + 0 / 4 - 0 / 100) + 306 - 719468 :=
          jan1_of_era (E + 1) 0 (by omega) (by omega)
        rw [show (399:Int) + E * 400 + 1 + 1 = 0 + (E + 1) * 400 + 1 by ring]
        omega
      · have hnext : daysFromCivil ((Y + 1) + E * 400 + 1) 1 1
            = 146097 * E + (365 * (Y + 1) + (Y + 1) / 4 - (Y + 1) / 100) + 306 - 719468 :=
          jan1_of_era E (Y + 1) (by omega) (by omega)
        rw [show Y + E * 400 + 1 + 1 = (Y + 1) + E * 400 + 1 by ring]
        omega
  · -- mp ≥ 12: impossible given doy ≤ 366
    exfalso
    omega

/-- 1 January day numbers are monotone in the year. -/
theorem jan1_mono (x y : Int) (h : x ≤ y) :
    daysFromCivil x 1 1 ≤ daysFromCivil y 1 1 := by
  rw [jan1_eq, jan1_eq]
  omega

/-- Any date of year `y` with month 1-12 and day 1-31 lies between
1 January of `y` (inclusive) and 1 January of `y+1` (exclusive). -/
theorem dfc_in_year (y m d : Int) (hm1 : 1 ≤ m) (hm2 : m ≤ 12)
    (hd1 : 1 ≤ d) (hd2 : d ≤ 31) :
    daysFromCivil y 1 1 ≤ daysFromCivil y m d ∧
      daysFromCivil y m d < daysFromCivil (y+1) 1 1 := by
  simp only [daysFromCivil]
  split_ifs with h2 <;> omega

/-- `yearOf` is a left inverse of `daysFromCivil` on calendar dates. -/
theorem yearOf_dfc (y m d : Int) (hm1 : 1 ≤ m) (hm2 : m ≤ 12)
    (hd1 : 1 ≤ d) (hd2 : d ≤ 31) :
    yearOf (daysFromCivil y m d) = y := by
  have h1 := yearOf_sound (daysFromCivil y m d)
  have h2 := dfc_in_year y m d hm1 hm2 hd1 hd2
  rcases lt_trichotomy (yearOf (daysFromCivil y m d)) y with h | h | h
  · have := jan1_mono (yearOf (daysFromCivil y m d) + 1) y (by omega)
    omega
  · exact h
  · have := jan1_mono (y + 1) (yearOf (daysFromCivil y m d)) (by omega)
    omega

theorem jsMod_bound (a b : Int) (hb : 0 < b) : -b < jsMod a b ∧ jsMod a b < b := by
  unfold jsMod
  split_ifs with h
  · exact ⟨lt_of_lt_of_le (by omega) (Int.emod_nonneg a (by omega)),
      Int.emod_lt_of_pos a hb⟩
  · have h1 : 0 ≤ (-a) % b := Int.emod_nonneg (-a) (by omega)
    have h2 : (-a) % b < b := Int.emod_lt_of_pos (-a) hb
    omega

theorem jsMod_eq_emod (a b : Int) (ha : 0 ≤ a) : jsMod a b = a % b := by
  unfold jsMod
  exact if_pos ha

/-- Position and weekday facts about the computed Easter Sunday: it always
falls between 1 February and 31 May of its year, and for nonnegative years
it falls on a Sunday. -/
theorem easter_facts (y : Int) :
    daysFromCivil y 2 1 ≤ getEasterSunday y ∧
    getEasterSunday y ≤ daysFromCivil y 5 31 ∧
    (0 ≤ y → dayOfWeek (getEasterSunday y) = 0) := by
  simp only [getEasterSunday, mkDate, dayOfWeek]
  generalize hA : jsMod y 19 = A
  have hAb : -19 < A ∧ A < 19 := hA ▸ jsMod_bound y 19 (by norm_num)
  generalize hC : jsMod y 100 = C
  have hCb : -100 < C ∧ C < 100 := hC ▸ jsMod_bound y 100 (by norm_num)
  generalize hK : jsMod C 4 = K
  have hKb : -4 < K ∧ K < 4 := hK ▸ jsMod_bound C 4 (by norm_num)
  generalize hE : jsMod (y / 100) 4 = E
  have hEb : -4 < E ∧ E < 4 := hE ▸ jsMod_bound (y / 100) 4 (by norm_num)
  generalize hH : jsMod (19 * A + y / 100 - y / 100 / 4 - (y / 100 - (y / 100 + 8) / 25 + 1) / 3 + 15) 30 = H
  have hHb : -30 < H ∧ H < 30 :=
    hH ▸ jsMod_bound (19 * A + y / 100 - y / 100 / 4 - (y / 100 - (y / 100 + 8) / 25 + 1) / 3 + 15) 30 (by norm_num)
  generalize hL : jsMod (32 + 2 * E + 2 * (C / 4) - H - K) 7 = L
  have hLb : -7 < L ∧ L < 7 := hL ▸ jsMod_bound (32 + 2 * E + 2 * (C / 4) - H - K) 7 (by norm_num)
  generalize hV : H + L - 7 * ((A + 11 * H + 22 * L) / 451) + 114 = V
  have hVb : 72 ≤ V ∧ V ≤ 163 := by omega
  rw [jsMod_eq_emod V 31 (by omega)]
  rw [show V / 31 - 1 + 1 = V / 31 by ring]
  refine ⟨?_, ?_, ?_⟩
  · simp only [daysFromCivil]
    split_ifs <;> omega
  · simp only [daysFromCivil]
    split_ifs <;> omega
  · intro hy
    rw [jsMod_eq_emod y 19 (by omega)] at hA
    rw [jsMod_eq_emod y 100 (by omega)] at hC
    rw [jsMod_eq_emod C 4 (by omega)] at hK
    rw [jsMod_eq_emod (y / 100) 4 (by omega)] at hE
    have hH0 : 0 ≤ H ∧ H ≤ 29 := by
      rw [jsMod_eq_emod (19 * A + y / 100 - y / 100 / 4 - (y / 100 - (y / 100 + 8) / 25 + 1) / 3 + 15) 30 (by omega)] at hH
      omega
    have hL0 : 0 ≤ L ∧ L ≤ 6 := by
      rw [jsMod_eq_emod (32 + 2 * E + 2 * (C / 4) - H - K) 7 (by omega)] at hL
      omega
    rw [jsMod_eq_emod (32 + 2 * E + 2 * (C / 4) - H - K) 7 (by omega)] at hL
    have hyoe : y - y / 400 * 400 = 100 * E + C := by omega
    have hw4 : (y - y / 400 * 400) / 4 = 25 * E + C / 4 := by omega
    have hw100 : (y - y / 400 * 400) / 100 = E := by omega
    have hV107 : 107 ≤ V ∧ V ≤ 149 := by omega
    have hdoy : (153 * (V / 31 - 3) + 2) / 5 + (V % 31 + 1) - 1 = V - 93 := by omega
    simp only [daysFromCivil]
    split_ifs with hsh
    · exfalso
      omega
    · omega

/-- Linearity of the civil conversion in the day argument. -/
theorem dfc_day_add (y m d t : Int) :
    daysFromCivil y m (d + t) = daysFromCivil y m d + t := by
  simp only [daysFromCivil]
  split_ifs <;> omega

/-- For nonnegative years, no South African public holiday produced by
`getSAPublicHolidays` falls on a Sunday: fixed holidays are shifted off
Sunday, and Good Friday / Family Day fall on Friday / Saturday. -/
theorem holiday_dow_ne_zero (y : Int) (hy : 0 ≤ y) :
    ∀ x ∈ getSAPublicHolidays y, dayOfWeek x ≠ 0 := by
  intro x hx
  have hE := (easter_facts y).2.2 hy
  simp only [getSAPublicHolidays, fixedHolidays, List.map_cons, List.map_nil,
    List.mem_append, List.mem_cons, List.not_mem_nil, or_false] at hx
  rcases hx with ((rfl|rfl|rfl|rfl|rfl|rfl|rfl|rfl|rfl|rfl)|rfl|rfl) <;>
    simp only [getFamilyDay, getGoodFriday, mkDate, daysFromCivil, dayOfWeek] at hE ⊢ <;>
    first
      | (split_ifs <;> omega)
      | omega

/-- No South African public holiday ever falls in the first week of July
(in fact none falls in July at all). -/
theorem july_not_holiday (y x : Int) (h1 : daysFromCivil y 7 1 ≤ x)
    (h2 : x ≤ daysFromCivil y 7 7) : x ∉ getSAPublicHolidays y := by
  intro hx
  have hEb := (easter_facts y).2.1
  simp only [getSAPublicHolidays, fixedHolidays, List.map_cons, List.map_nil,
    List.mem_append, List.mem_cons, List.not_mem_nil, or_false] at hx
  simp only [daysFromCivil] at h1 h2
  rcases hx with ((h|h|h|h|h|h|h|h|h|h)|h|h) <;>
    simp only [getFamilyDay, getGoodFriday, mkDate, daysFromCivil, dayOfWeek] at h hEb <;>
    split_ifs at * <;> omega

/-- From any day there is a business day at most 800 days ahead. -/
theorem exists_business_day (d : Int) :
    ∃ k : Nat, 1 ≤ k ∧ k ≤ 800 ∧ isBusinessDay (d + (k : Int)) = true := by
  obtain ⟨hs1, hs2⟩ := yearOf_sound d
  set y := yearOf d with hy
  set J := daysFromCivil (y + 1) 7 1 with hJ
  set t := (2 - (J + 4) % 7 + 7) % 7 with ht
  have htb : 0 ≤ t ∧ t ≤ 6 := by omega
  have hdow : dayOfWeek (J + t) = 2 := by
    simp only [dayOfWeek]
    omega
  have hJd : J + t = daysFromCivil (y + 1) 7 (1 + t) := by
    rw [dfc_day_add]
  have hyx : yearOf (J + t) = y + 1 := by
    rw [hJd]
    exact yearOf_dfc (y + 1) 7 (1 + t) (by norm_num) (by norm_num) (by omega) (by omega)
  have hJ7 : J + t ≤ daysFromCivil (y + 1) 7 7 := by
    have : daysFromCivil (y + 1) 7 7 = J + 6 := by
      rw [hJ, show (7:Int) = 1 + 6 by norm_num, dfc_day_add]
    omega
  have hnh : (J + t) ∉ getSAPublicHolidays (y + 1) :=
    july_not_holiday (y + 1) (J + t) (by omega) hJ7
  have hbd : isBusinessDay (J + t) = true := by
    simp only [isBusinessDay, isWeekend, isPublicHoliday, startOfDay, hyx,
      Bool.and_eq_true, Bool.not_eq_true']
    constructor
    · simp only [decide_eq_false_iff_not]
      omega
    · simpa using hnh
  have hgt : d < J + t := by
    have hj1 := (dfc_in_year (y + 1) 7 1 (by norm_num) (by norm_num)
      (by norm_num) (by norm_num)).1
    omega
  have hle : J + t - d ≤ 800 := by
    have hspan : daysFromCivil (y + 1) 7 7 - daysFromCivil y 1 1 ≤ 554 := by
      rw [jan1_eq]
      simp only [daysFromCivil]
      split_ifs <;> omega
    omega
  refine ⟨(J + t - d).toNat, by omega, by omega, ?_⟩
  have : d + ((J + t - d).toNat : Int) = J + t := by omega
  rw [this, hbd]

/-- The `addBusinessDays` loop never moves backwards. -/
theorem addBusinessDaysGo_ge (businessDays : Int) :
    ∀ (fuel : Nat) (cur added : Int),
      cur ≤ addBusinessDaysGo businessDays fuel cur added := by
  intro fuel
  induction fuel with
  | zero => intro cur added; simp [addBusinessDaysGo]
  | succ n ih =>
    intro cur added
    simp only [addBusinessDaysGo]
    split_ifs <;> try exact le_refl cur
    all_goals exact le_trans (by omega) (ih _ _)

/-- `addBusinessDays` never returns a date before its start. -/
theorem addBusinessDays_ge (s n : Int) : s ≤ addBusinessDays s n := by
  unfold addBusinessDays startOfDay
  split_ifs
  · exact le_refl s
  · exact addBusinessDaysGo_ge n _ s 0

/-- Once one business day has been counted, the single-step loop stops. -/
theorem addBusinessDaysGo_one_done (fuel : Nat) (cur : Int) :
    addBusinessDaysGo 1 fuel cur 1 = cur := by
  cases fuel <;> simp [addBusinessDaysGo]

/-- If some business day lies within `fuel` days ahead of `d`, the
single-step loop returns a strictly later date that is a business day. -/
theorem addBusinessDaysGo_one_correct :
    ∀ (fuel : Nat) (d : Int),
      (∃ k : Nat, 1 ≤ k ∧ k ≤ fuel ∧ isBusinessDay (d + (k : Int)) = true) →
      d < addBusinessDaysGo 1 fuel d 0 ∧
        isBusinessDay (addBusinessDaysGo 1 fuel d 0) = true := by
  intro fuel
  induction fuel with
  | zero => rintro d ⟨k, hk1, hk2, _⟩; omega
  | succ n ih =>
    rintro d ⟨k, hk1, hk2, hk3⟩
    simp only [addBusinessDaysGo, show (0:Int) < 1 by norm_num, if_pos]
    by_cases hb : isBusinessDay (d + 1) = true
    · rw [if_pos hb]
      simp only [zero_add, addBusinessDaysGo_one_done]
      exact ⟨by omega, hb⟩
    · rw [if_neg hb]
      have hk1' : k ≠ 1 := by
        rintro rfl
        rw [show ((1:Nat):Int) = 1 by norm_num] at hk3
        exact hb hk3
      have := ih (d + 1) ⟨k - 1, by omega, by omega, by
        have : d + 1 + ((k - 1 : Nat) : Int) = d + (k : Int) := by
          omega
        rw [this]; exact hk3⟩
      exact ⟨by omega, this.2⟩

/-- Antisymmetry of `getBusinessDaysBetween`: the source normalises the
order, counts over the same interval, and negates. -/
theorem gbd_antisymm (a b : Int) :
    getBusinessDaysBetween a b = -getBusinessDaysBetween b a := by
  simp only [getBusinessDaysBetween, startOfDay]
  split_ifs <;> omega

/-- `getBusinessDaysBetween` on a single day is zero. -/
theorem gbd_same (a : Int) : getBusinessDaysBetween a a = 0 := by
  simp [getBusinessDaysBetween, startOfDay]

/-- `getBusinessDaysUntil` agrees with `getBusinessDaysBetween today _`. -/
theorem gbdU_eq (today d : Int) :
    getBusinessDaysUntil today d = getBusinessDaysBetween today d := by
  simp only [getBusinessDaysUntil, startOfDay]
  split_ifs with h1 h2
  · rw [h1, gbd_same]
  · rw [gbd_antisymm d today]
    ring
  · rfl

/-- Full characterisation of `calculatePhaseDeadlines`: the cursor starts at
the anchor, each non-mirror non-skipped phase advances it through
`addBusinessDays`, a skipped `wayleave` leaves it unchanged and gets no
deadline, and the mirror phases `fqa`/`com` copy `build`/`rfa` without
advancing it. -/
theorem calc_spec (anchor : Int) (a : PhaseName → Int) :
    (calculatePhaseDeadlines anchor a) planning
        = some (addBusinessDays anchor (a planning)) ∧
    (calculatePhaseDeadlines anchor a) funding
        = some (addBusinessDays (addBusinessDays anchor (a planning)) (a funding)) ∧
    (calculatePhaseDeadlines anchor a) wayleave
        = (if a wayleave = 0 then none
           else some (addBusinessDays
             (addBusinessDays (addBusinessDays anchor (a planning)) (a funding))
             (a wayleave))) ∧
    (calculatePhaseDeadlines anchor a) materials
        = some (addBusinessDays
            (if a wayleave = 0 then
               addBusinessDays (addBusinessDays anchor (a planning)) (a funding)
             else addBusinessDays
               (addBusinessDays (addBusinessDays anchor (a planning)) (a funding))
               (a wayleave))
            (a materials)) ∧
    ∀ cm : Int,
      cm = addBusinessDays
            (if a wayleave = 0 then
               addBusinessDays (addBusinessDays anchor (a planning)) (a funding)
             else addBusinessDays
               (addBusinessDays (addBusinessDays anchor (a planning)) (a funding))
               (a wayleave))
            (a materials) →
      (calculatePhaseDeadlines anchor a) announcement
          = some (addBusinessDays cm (a announcement)) ∧
      (calculatePhaseDeadlines anchor a) kickoff
          = some (addBusinessDays (addBusinessDays cm (a announcement)) (a kickoff)) ∧
      (calculatePhaseDeadlines anchor a) build
          = some (addBusinessDays (addBusinessDays (addBusinessDays cm (a announcement)) (a kickoff)) (a build)) ∧
      (calculatePhaseDeadlines anchor a) fqa
          = some (addBusinessDays (addBusinessDays (addBusinessDays cm (a announcement)) (a kickoff)) (a build)) ∧
      ∀ cb : Int,
        cb = addBusinessDays (addBusinessDays (addBusinessDays cm (a announcement)) (a kickoff)) (a build) →
        (calculatePhaseDeadlines anchor a) ecc = some (addBusinessDays cb (a ecc)) ∧
        (calculatePhaseDeadlines anchor a) integration
            = some (addBusinessDays (addBusinessDays cb (a ecc)) (a integration)) ∧
        (calculatePhaseDeadlines anchor a) rfa
            = some (addBusinessDays (addBusinessDays (addBusinessDays cb (a ecc)) (a integration)) (a rfa)) ∧
        (calculatePhaseDeadlines anchor a) com
            = some (addBusinessDays (addBusinessDays (addBusinessDays cb (a ecc)) (a integration)) (a rfa)) := by
  by_cases hw : a wayleave = 0 <;>
    simp [calculatePhaseDeadlines, PHASE_ORDER, calcPhasesAux, calcPhaseStep,
      MIRROR_PHASES, setPhase, startOfDay, hw]

/-- After a targeted override, the two mirror pairs stay equal, provided the
incoming deadlines already satisfied the mirror equalities. -/
theorem calcFrom_mirror (ch : PhaseName) (D : Int) (a cur : PhaseName → Int)
    (hfb : cur fqa = cur build) (hcr : cur com = cur rfa) :
    calculatePhaseDeadlinesFromDeadline ch D a cur fqa
        = calculatePhaseDeadlinesFromDeadline ch D a cur build ∧
    calculatePhaseDeadlinesFromDeadline ch D a cur com
        = calculatePhaseDeadlinesFromDeadline ch D a cur rfa := by
  cases ch <;> by_cases hw : a wayleave = 0 <;>
    simp [calculatePhaseDeadlinesFromDeadline, PHASE_ORDER, calcFromAux,
      calcFromStep, MIRROR_PHASES, setPhaseT, startOfDay, hw, hfb, hcr]

/-- When 25 December falls on a Sunday: the holiday list contains
26 December exactly twice (shifted Christmas Day and Day of Goodwill), and
does not contain 27 December. -/
theorem dec_facts (y : Int) (hd : dayOfWeek (daysFromCivil y 12 25) = 0) :
    (getSAPublicHolidays y).count (daysFromCivil y 12 26) = 2 ∧
    daysFromCivil y 12 27 ∉ getSAPublicHolidays y := by
  have hEb := (easter_facts y).2.1
  norm_num [daysFromCivil] at hEb
  have N0 : ∀ t : Int, daysFromCivil y 12 26 ≤ t → t ≤ daysFromCivil y 12 27 →
      ¬ (t = (if dayOfWeek (mkDate y 0 1) = 0 then mkDate y 0 1 + 1 else mkDate y 0 1)) := by
    intro t h1 h2
    norm_num [mkDate, dayOfWeek, daysFromCivil] at h1 h2 ⊢
    split_ifs <;> omega
  have N1 : ∀ t : Int, daysFromCivil y 12 26 ≤ t → t ≤ daysFromCivil y 12 27 →
      ¬ (t = (if dayOfWeek (mkDate y 2 21) = 0 then mkDate y 2 21 + 1 else mkDate y 2 21)) := by
    intro t h1 h2
    norm_num [mkDate, dayOfWeek, daysFromCivil] at h1 h2 ⊢
    split_ifs <;> omega
  have N2 : ∀ t : Int, daysFromCivil y 12 26 ≤ t → t ≤ daysFromCivil y 12 27 →
      ¬ (t = (if dayOfWeek (mkDate y 3 27) = 0 then mkDate y 3 27 + 1 else mkDate y 3 27)) := by
    intro t h1 h2
    norm_num [mkDate, dayOfWeek, daysFromCivil] at h1 h2 ⊢
    split_ifs <;> omega
  have N3 : ∀ t : Int, daysFromCivil y 12 26 ≤ t → t ≤ daysFromCivil y 12 27 →
      ¬ (t = (if dayOfWeek (mkDate y 4 1) = 0 then mkDate y 4 1 + 1 else mkDate y 4 1)) := by
    intro t h1 h2
    norm_num [mkDate, dayOfWeek, daysFromCivil] at h1 h2 ⊢
    split_ifs <;> omega
  have N4 : ∀ t : Int, daysFromCivil y 12 26 ≤ t → t ≤ daysFromCivil y 12 27 →
      ¬ (t = (if dayOfWeek (mkDate y 5 16) = 0 then mkDate y 5 16 + 1 else mkDate y 5 16)) := by
    intro t h1 h2
    norm_num [mkDate, dayOfWeek, daysFromCivil] at h1 h2 ⊢
    split_ifs <;> omega
  have N5 : ∀ t : Int, daysFromCivil y 12 26 ≤ t → t ≤ daysFromCivil y 12 27 →
      ¬ (t = (if dayOfWeek (mkDate y 7 9) = 0 then mkDate y 7 9 + 1 else mkDate y 7 9)) := by
    intro t h1 h2
    norm_num [mkDate, dayOfWeek, daysFromCivil] at h1 h2 ⊢
    split_ifs <;> omega
  have N6 : ∀ t : Int, daysFromCivil y 12 26 ≤ t → t ≤ daysFromCivil y 12 27 →
      ¬ (t = (if dayOfWeek (mkDate y 8 24) = 0 then mkDate y 8 24 + 1 else mkDate y 8 24)) := by
    intro t h1 h2
    norm_num [mkDate, dayOfWeek, daysFromCivil] at h1 h2 ⊢
    split_ifs <;> omega
  have N7 : ∀ t : Int, daysFromCivil y 12 26 ≤ t → t ≤ daysFromCivil y 12 27 →
      ¬ (t = (if dayOfWeek (mkDate y 11 16) = 0 then mkDate y 11 16 + 1 else mkDate y 11 16)) := by
    intro t h1 h2
    norm_num [mkDate, dayOfWeek, daysFromCivil] at h1 h2 ⊢
    split_ifs <;> omega
  have NGF : ∀ t : Int, daysFromCivil y 12 26 ≤ t →
      ¬ (t = getGoodFriday y) := by
    intro t h1
    norm_num [getGoodFriday, daysFromCivil] at h1 ⊢
    omega
  have NFD : ∀ t : Int, daysFromCivil y 12 26 ≤ t →
      ¬ (t = getFamilyDay y) := by
    intro t h1
    norm_num [getFamilyDay, getGoodFriday, daysFromCivil] at h1 ⊢
    omega
  have PX : daysFromCivil y 12 26
      = (if dayOfWeek (mkDate y 11 25) = 0 then mkDate y 11 25 + 1 else mkDate y 11 25) := by
    norm_num [mkDate, dayOfWeek, daysFromCivil] at hd ⊢
    split_ifs <;> omega
  have PG : daysFromCivil y 12 26
      = (if dayOfWeek (mkDate y 11 26) = 0 then mkDate y 11 26 + 1 else mkDate y 11 26) := by
    norm_num [mkDate, dayOfWeek, daysFromCivil] at hd ⊢
    split_ifs <;> omega
  have N8 : ¬ (daysFromCivil y 12 27
      = (if dayOfWeek (mkDate y 11 25) = 0 then mkDate y 11 25 + 1 else mkDate y 11 25)) := by
    norm_num [mkDate, dayOfWeek, daysFromCivil] at hd ⊢
    split_ifs <;> omega
  have N9 : ¬ (daysFromCivil y 12 27
      = (if dayOfWeek (mkDate y 11 26) = 0 then mkDate y 11 26 + 1 else mkDate y 11 26)) := by
    norm_num [mkDate, dayOfWeek, daysFromCivil] at hd ⊢
    split_ifs <;> omega
  have hle : daysFromCivil y 12 26 ≤ daysFromCivil y 12 26 ∧
      daysFromCivil y 12 26 ≤ daysFromCivil y 12 27 ∧
      daysFromCivil y 12 27 ≤ daysFromCivil y 12 27 := by
    norm_num [daysFromCivil]
  constructor
  · simp only [getSAPublicHolidays, fixedHolidays, List.map_cons, List.map_nil,
      List.count_append, List.count_cons, List.count_nil, beq_iff_eq,
      if_neg (Ne.symm (N0 _ hle.1 hle.2.1)), if_neg (Ne.symm (N1 _ hle.1 hle.2.1)),
      if_neg (Ne.symm (N2 _ hle.1 hle.2.1)), if_neg (Ne.symm (N3 _ hle.1 hle.2.1)),
      if_neg (Ne.symm (N4 _ hle.1 hle.2.1)), if_neg (Ne.symm (N5 _ hle.1 hle.2.1)),
      if_neg (Ne.symm (N6 _ hle.1 hle.2.1)), if_neg (Ne.symm (N7 _ hle.1 hle.2.1)),
      if_pos PX.symm, if_pos PG.symm,
      if_neg (Ne.symm (NGF _ hle.1)), if_neg (Ne.symm (NFD _ hle.1))]
  · intro hx
    simp only [getSAPublicHolidays, fixedHolidays, List.map_cons, List.map_nil,
      List.mem_append, List.mem_cons, List.not_mem_nil, or_false] at hx
    rcases hx with ((h|h|h|h|h|h|h|h|h|h)|h|h)
    · exact N0 _ hle.2.1 hle.2.2 h
    · exact N1 _ hle.2.1 hle.2.2 h
    · exact N2 _ hle.2.1 hle.2.2 h
    · exact N3 _ hle.2.1 hle.2.2 h
    · exact N4 _ hle.2.1 hle.2.2 h
    · exact N5 _ hle.2.1 hle.2.2 h
    · exact N6 _ hle.2.1 hle.2.2 h
    · exact N7 _ hle.2.1 hle.2.2 h
    · exact N8 h
    · exact N9 h
    · exact NGF _ hle.2.1 h
    · exact NFD _ hle.2.1 h

/-- C1: for every anchor date and duration table, `calculatePhaseDeadlines`
walks `PHASE_ORDER` with a cursor starting at the start-of-day of the anchor:
a mirror phase (`fqa`, `com`) receives its source's already-computed deadline
with the cursor unchanged, `wayleave` with `allowedDays == 0` receives no
deadline with the cursor unchanged, and every other phase receives
`addBusinessDays(cursor, allowedDays)`, which becomes the new cursor. -/
theorem claim_C1 (anchor : Int) (a : PhaseName → Int) :
    let c0 := startOfDay anchor
    let c1 := addBusinessDays c0 (a planning)
    let c2 := addBusinessDays c1 (a funding)
    let c3 := if a wayleave = 0 then c2 else addBusinessDays c2 (a wayleave)
    let c4 := addBusinessDays c3 (a materials)
    let c5 := addBusinessDays c4 (a announcement)
    let c6 := addBusinessDays c5 (a kickoff)
    let c7 := addBusinessDays c6 (a build)
    let c8 := addBusinessDays c7 (a ecc)
    let c9 := addBusinessDays c8 (a integration)
    let c10 := addBusinessDays c9 (a rfa)
    (calculatePhaseDeadlines anchor a) planning = some c1 ∧
    (calculatePhaseDeadlines anchor a) funding = some c2 ∧
    (calculatePhaseDeadlines anchor a) wayleave
      = (if a wayleave = 0 then none else some c3) ∧
    (calculatePhaseDeadlines anchor a) materials = some c4 ∧
    (calculatePhaseDeadlines anchor a) announcement = some c5 ∧
    (calculatePhaseDeadlines anchor a) kickoff = some c6 ∧
    (calculatePhaseDeadlines anchor a) build = some c7 ∧
    (calculatePhaseDeadlines anchor a) fqa = some c7 ∧
    (calculatePhaseDeadlines anchor a) ecc = some c8 ∧
    (calculatePhaseDeadlines anchor a) integration = some c9 ∧
    (calculatePhaseDeadlines anchor a) rfa = some c10 ∧
    (calculatePhaseDeadlines anchor a) com = some c10 := by
  by_cases hw : a wayleave = 0 <;>
    simp [calculatePhaseDeadlines, PHASE_ORDER, calcPhasesAux, calcPhaseStep,
      MIRROR_PHASES, setPhase, startOfDay, hw]

/-- C2: after any recalculation the mirror equalities hold: full
recalculation always produces `fqa = build` and `com = rfa`, and a targeted
override preserves them whenever the incoming deadlines satisfied them. -/
theorem claim_C2 :
    (∀ (anchor : Int) (a : PhaseName → Int),
      (calculatePhaseDeadlines anchor a) fqa = (calculatePhaseDeadlines anchor a) build ∧
      (calculatePhaseDeadlines anchor a) com = (calculatePhaseDeadlines anchor a) rfa) ∧
    (∀ (ch : PhaseName) (D : Int) (a cur : PhaseName → Int),
      cur fqa = cur build → cur com = cur rfa →
      calculatePhaseDeadlinesFromDeadline ch D a cur fqa
          = calculatePhaseDeadlinesFromDeadline ch D a cur build ∧
      calculatePhaseDeadlinesFromDeadline ch D a cur com
          = calculatePhaseDeadlinesFromDeadline ch D a cur rfa) := by
  constructor
  · intro anchor a
    obtain ⟨h1, h2, h3, h4, h5⟩ := calc_spec anchor a
    obtain ⟨h6, h7, h8, h9, h10⟩ := h5 _ rfl
    obtain ⟨h11, h12, h13, h14⟩ := h10 _ rfl
    rw [h8, h9, h13, h14]
    exact ⟨rfl, rfl⟩
  · intro ch D a cur hfb hcr
    exact calcFrom_mirror ch D a cur hfb hcr

/-- Witness for C2 at concrete inputs. -/
theorem claim_C2_witness :
    ((calculatePhaseDeadlines 0 DEFAULT_ALLOWED_DAYS) fqa
        = (calculatePhaseDeadlines 0 DEFAULT_ALLOWED_DAYS) build) ∧
    (calculatePhaseDeadlinesFromDeadline planning 5 DEFAULT_ALLOWED_DAYS (fun _ => 0) fqa
        = calculatePhaseDeadlinesFromDeadline planning 5 DEFAULT_ALLOWED_DAYS (fun _ => 0) build) :=
  ⟨(claim_C2.1 0 DEFAULT_ALLOWED_DAYS).1,
   (claim_C2.2 planning 5 DEFAULT_ALLOWED_DAYS (fun _ => 0) rfl rfl).1⟩

/-- C4: a targeted override of `build` to `D` makes `fqa` equal to `D`,
recomputes `ecc` as `addBusinessDays(D, eccDays)`, and leaves every phase
strictly before `build` in `PHASE_ORDER` at its incoming deadline. -/
theorem claim_C4 (D : Int) (a cur : PhaseName → Int) :
    calculatePhaseDeadlinesFromDeadline build D a cur planning = cur planning ∧
    calculatePhaseDeadlinesFromDeadline build D a cur funding = cur funding ∧
    calculatePhaseDeadlinesFromDeadline build D a cur wayleave = cur wayleave ∧
    calculatePhaseDeadlinesFromDeadline build D a cur materials = cur materials ∧
    calculatePhaseDeadlinesFromDeadline build D a cur announcement = cur announcement ∧
    calculatePhaseDeadlinesFromDeadline build D a cur kickoff = cur kickoff ∧
    calculatePhaseDeadlinesFromDeadline build D a cur fqa = D ∧
    calculatePhaseDeadlinesFromDeadline build D a cur ecc
      = addBusinessDays D (a ecc) := by
  simp [calculatePhaseDeadlinesFromDeadline, PHASE_ORDER, calcFromAux,
    calcFromStep, MIRROR_PHASES, setPhaseT, startOfDay]

/-- C5: `getBusinessDaysBetween` is antisymmetric, and zero on any pair of
dates lying in the same calendar day. -/
theorem claim_C5 (a b : Int) :
    getBusinessDaysBetween a b = -getBusinessDaysBetween b a ∧
    (startOfDay a = startOfDay b → getBusinessDaysBetween a b = 0) := by
  refine ⟨gbd_antisymm a b, ?_⟩
  intro h
  have : a = b := h
  rw [this, gbd_same]

/-- Witness for C5 at a concrete pair. -/
theorem claim_C5_witness :
    getBusinessDaysBetween 100 100 = -getBusinessDaysBetween 100 100 ∧
    getBusinessDaysBetween 100 100 = 0 :=
  ⟨(claim_C5 100 100).1, (claim_C5 100 100).2 rfl⟩

/-- C6: `getBusinessDaysUntil` (with `today` captured at start of day)
computes `getBusinessDaysBetween today deadline`; it is 0 when the deadline
is the same calendar day as today, and -1 when the deadline lies one
business day before today. -/
theorem claim_C6 (today d : Int) :
    getBusinessDaysUntil today d = getBusinessDaysBetween today d ∧
    (startOfDay d = startOfDay today → getBusinessDaysUntil today d = 0) ∧
    (getBusinessDaysBetween d today = 1 → getBusinessDaysUntil today d = -1) := by
  refine ⟨gbdU_eq today d, ?_, ?_⟩
  · intro h
    have hdt : d = today := h
    rw [gbdU_eq, hdt, gbd_same]
  · intro h
    rw [gbdU_eq, gbd_antisymm today d, h]

/-- Witness for C6: 2024-01-04 (a Thursday) as `today`; a deadline that day
gives 0, and the previous business day 2024-01-03 gives -1. -/
theorem claim_C6_witness :
    getBusinessDaysUntil 19726 19726 = 0 ∧
    getBusinessDaysUntil 19726 19725 = -1 :=
  ⟨(claim_C6 19726 19726).2.1 rfl, (claim_C6 19726 19725).2.2 (by decide)⟩

/-- C7: for a business day `d`, `addBusinessDays d 1` is strictly later than
`d` and is itself a business day. -/
theorem claim_C7 (d : Int) (h : isBusinessDay d = true) :
    d < addBusinessDays d 1 ∧ isBusinessDay (addBusinessDays d 1) = true := by
  clear h
  unfold addBusinessDays startOfDay
  rw [if_neg (by norm_num)]
  apply addBusinessDaysGo_one_correct
  obtain ⟨k, hk1, hk2, hk3⟩ := exists_business_day d
  exact ⟨k, hk1, by unfold businessFuel; omega, hk3⟩

/-- Witness for C7 at 2024-01-04 (a Thursday business day). -/
theorem claim_C7_witness :
    19726 < addBusinessDays 19726 1 ∧
    isBusinessDay (addBusinessDays 19726 1) = true :=
  claim_C7 19726 (by decide)

/-- Counterexample to C3: in 2022, Christmas Day (25 December) falls on a
Sunday; `getSAPublicHolidays 2022` contains the following Monday, but the
original Sunday date itself is NOT in the returned set — the source shifts
the entry instead of adding one. -/
theorem claim_C3_counterexample :
    dayOfWeek (mkDate 2022 11 25) = 0 ∧
    (mkDate 2022 11 25 + 1) ∈ getSAPublicHolidays 2022 ∧
    mkDate 2022 11 25 ∉ getSAPublicHolidays 2022 := by
  refine ⟨by decide, by decide, by decide⟩

/-- C3 (amended): for every year `y ≥ 0` and every fixed holiday of that
year falling on a Sunday, `getSAPublicHolidays y` contains the following
Monday but no longer contains the Sunday date itself (the entry is shifted,
not duplicated); the Easter-derived holidays never fall on a Sunday. -/
theorem claim_C3 (y : Int) (hy : 0 ≤ y) (md : Int × Int)
    (hmd : md ∈ fixedHolidays)
    (hsun : dayOfWeek (mkDate y md.1 md.2) = 0) :
    (mkDate y md.1 md.2 + 1) ∈ getSAPublicHolidays y ∧
    mkDate y md.1 md.2 ∉ getSAPublicHolidays y ∧
    dayOfWeek (getGoodFriday y) ≠ 0 ∧
    dayOfWeek (getFamilyDay y) ≠ 0 := by
  have hdow := holiday_dow_ne_zero y hy
  have hE := (easter_facts y).2.2 hy
  refine ⟨?_, ?_, ?_, ?_⟩
  · simp only [getSAPublicHolidays, List.mem_append, List.mem_map]
    left
    exact ⟨md, hmd, by rw [if_pos hsun]⟩
  · intro hmem
    exact hdow _ hmem hsun
  · simp only [getGoodFriday, dayOfWeek] at hE ⊢
    omega
  · simp only [getFamilyDay, getGoodFriday, dayOfWeek] at hE ⊢
    omega

/-- Witness for the amended C3 at Christmas 2022. -/
theorem claim_C3_witness :
    (mkDate 2022 11 25 + 1) ∈ getSAPublicHolidays 2022 ∧
    mkDate 2022 11 25 ∉ getSAPublicHolidays 2022 := by
  have h := claim_C3 2022 (by norm_num) (11, 25) (by decide) (by decide)
  exact ⟨h.1, h.2.1⟩

/-- Counterexample to C8: the engine has no error path.  Running the full
recalculation loop over a corrupted phase order in which the mirror `fqa`
precedes its source `build` (so the mirror is reached with no computed
source deadline) returns normally and silently assigns `fqa` the default
`addBusinessDays(cursor, allowedDays)` instead of raising an error. -/
theorem claim_C8_counterexample :
    calcPhasesAux (fun _ => 3) [fqa, build] (fun _ => none) 19726 fqa
      = some (addBusinessDays 19726 3) ∧
    addBusinessDays 19726 3 = 19731 := by
  constructor
  · simp [calcPhasesAux, calcPhaseStep, MIRROR_PHASES, setPhase]
  · decide

/-- C8 (amended): when the full-recalculation step processes a mirror phase
whose source has no computed deadline, it does not fail: it falls through to
the normal branch, silently assigns the mirror
`addBusinessDays(cursor, allowedDays)`, and leaves the cursor unchanged.
(With the actual `PHASE_ORDER` the situation is unreachable, since `build`
and `rfa` are always assigned before `fqa` and `com`.) -/
theorem claim_C8 (a : PhaseName → Int) (dl : PhaseName → Option Int)
    (prev : Int) :
    (dl build = none →
      (calcPhaseStep a dl prev fqa).1 fqa = some (addBusinessDays prev (a fqa)) ∧
      (calcPhaseStep a dl prev fqa).2 = prev) ∧
    (dl rfa = none →
      (calcPhaseStep a dl prev com).1 com = some (addBusinessDays prev (a com)) ∧
      (calcPhaseStep a dl prev com).2 = prev) := by
  constructor
  · intro hnone
    simp [calcPhaseStep, MIRROR_PHASES, setPhase, hnone]
  · intro hnone
    simp [calcPhaseStep, MIRROR_PHASES, setPhase, hnone]

/-- Witness for the amended C8 on an empty deadline record. -/
theorem claim_C8_witness :
    (calcPhaseStep DEFAULT_ALLOWED_DAYS (fun _ => none) 0 fqa).1 fqa
      = some (addBusinessDays 0 (DEFAULT_ALLOWED_DAYS fqa)) ∧
    (calcPhaseStep DEFAULT_ALLOWED_DAYS (fun _ => none) 0 fqa).2 = 0 :=
  (claim_C8 DEFAULT_ALLOWED_DAYS (fun _ => none) 0).1 rfl

/-- C10: in any year whose 25 December falls on a Sunday, the holiday list
contains 26 December twice (shifted Christmas Day, and Day of Goodwill which
falls on that Monday anyway), does not contain 27 December, and Tuesday
27 December is a business day. -/
theorem claim_C10 (y : Int) (hd : dayOfWeek (mkDate y 11 25) = 0) :
    (getSAPublicHolidays y).count (mkDate y 11 26) = 2 ∧
    mkDate y 11 27 ∉ getSAPublicHolidays y ∧
    isBusinessDay (mkDate y 11 27) = true := by
  have hd' : dayOfWeek (daysFromCivil y 12 25) = 0 := by
    simpa [mkDate] using hd
  have hdec := dec_facts y hd'
  have h26 : mkDate y 11 26 = daysFromCivil y 12 26 := by norm_num [mkDate]
  have h27 : mkDate y 11 27 = daysFromCivil y 12 27 := by norm_num [mkDate]
  refine ⟨by rw [h26]; exact hdec.1, by rw [h27]; exact hdec.2, ?_⟩
  rw [h27]
  have hyear : yearOf (daysFromCivil y 12 27) = y :=
    yearOf_dfc y 12 27 (by norm_num) (by norm_num) (by norm_num) (by norm_num)
  have hw : dayOfWeek (daysFromCivil y 12 27) = 2 := by
    simp only [dayOfWeek, daysFromCivil] at hd' ⊢
    split_ifs at * <;> omega
  simp only [isBusinessDay, isWeekend, isPublicHoliday, startOfDay, hyear,
    Bool.and_eq_true, Bool.not_eq_true']
  constructor
  · simp only [decide_eq_false_iff_not]
    omega
  · simpa using hdec.2

/-- Witness for C10 in 2022. -/
theorem claim_C10_witness :
    (getSAPublicHolidays 2022).count (mkDate 2022 11 26) = 2 ∧
    mkDate 2022 11 27 ∉ getSAPublicHolidays 2022 ∧
    isBusinessDay (mkDate 2022 11 27) = true :=
  claim_C10 2022 (by decide)

/-- C9: for nonnegative duration tables, every computed deadline is at least
the start-of-day of the anchor, and deadlines are monotone along
`PHASE_ORDER` among the phases that received one. -/
theorem claim_C9 (anchor : Int) (a : PhaseName → Int)
    (hnn : ∀ p, 0 ≤ a p) :
    (∀ p v, (calculatePhaseDeadlines anchor a) p = some v →
      startOfDay anchor ≤ v) ∧
    (∀ p q vp vq, PHASE_ORDER.indexOf p < PHASE_ORDER.indexOf q →
      (calculatePhaseDeadlines anchor a) p = some vp →
      (calculatePhaseDeadlines anchor a) q = some vq → vp ≤ vq) := by
  clear hnn
  obtain ⟨h1, h2, h3, h4, h5⟩ := calc_spec anchor a
  obtain ⟨h6, h7, h8, h9, h10⟩ := h5 _ rfl
  obtain ⟨h11, h12, h13, h14⟩ := h10 _ rfl
  by_cases hw : a wayleave = 0
  · rw [if_pos hw] at h3 h4 h6 h7 h8 h9 h11 h12 h13 h14
    have gp := addBusinessDays_ge anchor (a planning)
    have gf := addBusinessDays_ge (addBusinessDays anchor (a planning)) (a funding)
    have gm := addBusinessDays_ge (addBusinessDays (addBusinessDays anchor (a planning)) (a funding)) (a materials)
    have gan := addBusinessDays_ge (addBusinessDays (addBusinessDays (addBusinessDays anchor (a planning)) (a funding)) (a materials)) (a announcement)
    have gk := addBusinessDays_ge (addBusinessDays (addBusinessDays (addBusinessDays (addBusinessDays anchor (a planning)) (a funding)) (a materials)) (a announcement)) (a kickoff)
    have gb := addBusinessDays_ge (addBusinessDays (addBusinessDays (addBusinessDays (addBusinessDays (addBusinessDays anchor (a planning)) (a funding)) (a materials)) (a announcement)) (a kickoff)) (a build)
    have ge := addBusinessDays_ge (addBusinessDays (addBusinessDays (addBusinessDays (addBusinessDays (addBusinessDays (addBusinessDays anchor (a planning)) (a funding)) (a materials)) (a announcement)) (a kickoff)) (a build)) (a ecc)
    have gi := addBusinessDays_ge (addBusinessDays (addBusinessDays (addBusinessDays (addBusinessDays (addBusinessDays (addBusinessDays (addBusinessDays anchor (a planning)) (a funding)) (a materials)) (a announcement)) (a kickoff)) (a build)) (a ecc)) (a integration)
    have gr := addBusinessDays_ge (addBusinessDays (addBusinessDays (addBusinessDays (addBusinessDays (addBusinessDays (addBusinessDays (addBusinessDays (addBusinessDays anchor (a planning)) (a funding)) (a materials)) (a announcement)) (a kickoff)) (a build)) (a ecc)) (a integration)) (a rfa)
    refine ⟨?_, ?_⟩
    · intro p v hv
      simp only [startOfDay]
      cases p
      all_goals try (rw [h1] at hv)
      all_goals try (rw [h2] at hv)
      all_goals try (rw [h3] at hv)
      all_goals try (rw [h4] at hv)
      all_goals try (rw [h6] at hv)
      all_goals try (rw [h7] at hv)
      all_goals try (rw [h8] at hv)
      all_goals try (rw [h9] at hv)
      all_goals try (rw [h11] at hv)
      all_goals try (rw [h12] at hv)
      all_goals try (rw [h13] at hv)
      all_goals try (rw [h14] at hv)
      all_goals try (exact Option.noConfusion hv)
      all_goals simp only [Option.some.injEq] at hv
      all_goals omega
    · intro p q vp vq hpq hp hq
      cases p <;> cases q
      all_goals try (exfalso; revert hpq; decide)
      all_goals try (rw [h1] at hp)
      all_goals try (rw [h2] at hp)
      all_goals try (rw [h3] at hp)
      all_goals try (rw [h4] at hp)
      all_goals try (rw [h6] at hp)
      all_goals try (rw [h7] at hp)
      all_goals try (rw [h8] at hp)
      all_goals try (rw [h9] at hp)
      all_goals try (rw [h11] at hp)
      all_goals try (rw [h12] at hp)
      all_goals try (rw [h13] at hp)
      all_goals try (rw [h14] at hp)
      all_goals try (exact Option.noConfusion hp)
      all_goals try (rw [h1] at hq)
      all_goals try (rw [h2] at hq)
      all_goals try (rw [h3] at hq)
      all_goals try (rw [h4] at hq)
      all_goals try (rw [h6] at hq)
      all_goals try (rw [h7] at hq)
      all_goals try (rw [h8] at hq)
      all_goals try (rw [h9] at hq)
      all_goals try (rw [h11] at hq)
      all_goals try (rw [h12] at hq)
      all_goals try (rw [h13] at hq)
      all_goals try (rw [h14] at hq)
      all_goals try (exact Option.noConfusion hq)
      all_goals simp only [Option.some.injEq] at hp hq
      all_goals omega
  · rw [if_neg hw] at h3 h4 h6 h7 h8 h9 h11 h12 h13 h14
    have gp := addBusinessDays_ge anchor (a planning)
    have gf := addBusinessDays_ge (addBusinessDays anchor (a planning)) (a funding)
    have gw := addBusinessDays_ge (addBusinessDays (addBusinessDays anchor (a planning)) (a funding)) (a wayleave)
    have gm := addBusinessDays_ge (addBusinessDays (addBusinessDays (addBusinessDays anchor (a planning)) (a funding)) (a wayleave)) (a materials)
    have gan := addBusinessDays_ge (addBusinessDays (addBusinessDays (addBusinessDays (addBusinessDays anchor (a planning)) (a funding)) (a wayleave)) (a materials)) (a announcement)
    have gk := addBusinessDays_ge (addBusinessDays (addBusinessDays (addBusinessDays (addBusinessDays (addBusinessDays anchor (a planning)) (a funding)) (a wayleave)) (a materials)) (a announcement)) (a kickoff)
    have gb := addBusinessDays_ge (addBusinessDays (addBusinessDays (addBusinessDays (addBusinessDays (addBusinessDays (addBusinessDays anchor (a planning)) (a funding)) (a wayleave)) (a materials)) (a announcement)) (a kickoff)) (a build)
    have ge := addBusinessDays_ge (addBusinessDays (addBusinessDays (addBusinessDays (addBusinessDays (addBusinessDays (addBusinessDays (addBusinessDays anchor (a planning)) (a funding)) (a wayleave)) (a materials)) (a announcement)) (a kickoff)) (a build)) (a ecc)
    have gi := addBusinessDays_ge (addBusinessDays (addBusinessDays (addBusinessDays (addBusinessDays (addBusinessDays (addBusinessDays (addBusinessDays (addBusinessDays anchor (a planning)) (a funding)) (a wayleave)) (a materials)) (a announcement)) (a kickoff)) (a build)) (a ecc)) (a integration)
    have gr := addBusinessDays_ge (addBusinessDays (addBusinessDays (addBusinessDays (addBusinessDays (addBusinessDays (addBusinessDays (addBusinessDays (addBusinessDays (addBusinessDays anchor (a planning)) (a funding)) (a wayleave)) (a materials)) (a announcement)) (a kickoff)) (a build)) (a ecc)) (a integration)) (a rfa)
    refine ⟨?_, ?_⟩
    · intro p v hv
      simp only [startOfDay]
      cases p
      all_goals try (rw [h1] at hv)
      all_goals try (rw [h2] at hv)
      all_goals try (rw [h3] at hv)
      all_goals try (rw [h4] at hv)
      all_goals try (rw [h6] at hv)
      all_goals try (rw [h7] at hv)
      all_goals try (rw [h8] at hv)
      all_goals try (rw [h9] at hv)
      all_goals try (rw [h11] at hv)
      all_goals try (rw [h12] at hv)
      all_goals try (rw [h13] at hv)
      all_goals try (rw [h14] at hv)
      all_goals try (exact Option.noConfusion hv)
      all_goals simp only [Option.some.injEq] at hv
      all_goals omega
    · intro p q vp vq hpq hp hq
      cases p <;> cases q
      all_goals try (exfalso; revert hpq; decide)
      all_goals try (rw [h1] at hp)
      all_goals try (rw [h2] at hp)
      all_goals try (rw [h3] at hp)
      all_goals try (rw [h4] at hp)
      all_goals try (rw [h6] at hp)
      all_goals try (rw [h7] at hp)
      all_goals try (rw [h8] at hp)
      all_goals try (rw [h9] at hp)
      all_goals try (rw [h11] at hp)
      all_goals try (rw [h12] at hp)
      all_goals try (rw [h13] at hp)
      all_goals try (rw [h14] at hp)
      all_goals try (exact Option.noConfusion hp)
      all_goals try (rw [h1] at hq)
      all_goals try (rw [h2] at hq)
      all_goals try (rw [h3] at hq)
      all_goals try (rw [h4] at hq)
      all_goals try (rw [h6] at hq)
      all_goals try (rw [h7] at hq)
      all_goals try (rw [h8] at hq)
      all_goals try (rw [h9] at hq)
      all_goals try (rw [h11] at hq)
      all_goals try (rw [h12] at hq)
      all_goals try (rw [h13] at hq)
      all_goals try (rw [h14] at hq)
      all_goals try (exact Option.noConfusion hq)
      all_goals simp only [Option.some.injEq] at hp hq
      all_goals omega

/-- Witness for C9 at anchor 0 (1970-01-01) with the default durations. -/
theorem claim_C9_witness :
    startOfDay 0 ≤ 14 ∧ (14:Int) ≤ 18 := by
  have h := claim_C9 0 DEFAULT_ALLOWED_DAYS
    (by intro p; cases p <;> norm_num [DEFAULT_ALLOWED_DAYS])
  exact ⟨h.1 planning 14 (by decide), h.2 planning funding 14 18 (by decide)
    (by decide) (by decide)⟩
